import Mathlib

/-!
# Verification of the Digital-Twin dependency fetcher

Shallow embedding of `scripts/fetch_dependencies.py`: the dependency
registry, the revision synchronizer (`fetch_dependency`), the workspace
cleaner (`clean_dependencies`) and the orchestrator (`main`).

The external world (filesystem entries under the workspace root, and the
behaviour of the git child processes) is modelled explicitly:

* `PathState` is what the filesystem shows for one dependency path:
  absent, a regular file, or a directory whose `git rev-parse HEAD`
  (stripped stdout) reads as a given string (the empty string models a
  non-repository or half-cloned directory).
* `DepEnv` is an oracle for the git commands run while synchronizing one
  dependency: whether clone / fetch / checkout / submodule-update report
  success, what HEAD a successful clone leaves, and whether a checkout
  that reports success actually moves HEAD (`checkoutMoves := false`
  models the silent checkout failures the verification step guards
  against).  `revParseExitOk` records the exit status of the
  `git rev-parse HEAD` reads; the script never inspects it.
* `CleanEnv` is an oracle for the delete operations of the cleaner.
-/

namespace DepFetch

/-- One entry of the hardcoded `DEPENDENCIES` table: name, clone URL and
pinned commit hash. -/
structure DependencySpec where
  name : String
  url : String
  commit : String
deriving Repr, DecidableEq

/-- The hardcoded registry of the script (`DEPENDENCIES` dict, in
insertion order). -/
def DEPENDENCIES : List DependencySpec :=
  [ ⟨"nanobind", "https://github.com/wjakob/nanobind.git",
      "116e098cfa96effca2a54e32e0ce5b93abe25393"⟩,
    ⟨"spdlog", "https://github.com/gabime/spdlog.git",
      "486b55554f11c9cccc913e11a87085b2a91f706f"⟩,
    ⟨"volk", "https://github.com/zeux/volk.git",
      "0b17a763ba5643e32da1b2152f8140461b3b7345"⟩,
    ⟨"glm", "https://github.com/g-truc/glm.git",
      "a532f5b1cf27d6a3c099437e6959cf7e398a0a67"⟩,
    ⟨"entt", "https://github.com/skypjack/entt.git",
      "b4e58bdd364ad72246c123a0c28538eab3252672"⟩,
    ⟨"googletest", "https://github.com/google/googletest.git",
      "52eb8108c5bdec04579160ae17225d66034bd723"⟩ ]

/-- Filesystem state of the path `external_dir / name` for one
dependency. `isDir h` carries what `git rev-parse HEAD` run in that
directory prints (stripped); `h = ""` models a directory that is not a
usable repository. -/
inductive PathState
  | absent
  | isFile
  | isDir (head : String)
deriving Repr, DecidableEq

/-- `repo_dir.exists()` of the script: true for a file as well as for a
directory. -/
def pathExists : PathState → Bool
  | .absent => false
  | _ => true

/-- Whether the path is a directory. -/
def isDirState : PathState → Bool
  | .isDir _ => true
  | _ => false

/-- The git commands the script issues through `run_command`. -/
inductive GitCmd
  | clone (url name : String)
  | fetch
  | checkout (rev : String)
  | submoduleUpdate
deriving Repr, DecidableEq

/-- How a child process is invoked: the command string handed to
`subprocess.run`, and whether shell interpretation is enabled
(`shell=True`). -/
structure Invocation where
  cmdString : String
  shell : Bool
deriving Repr, DecidableEq

/-- The invocation the script builds for each git command: an
interpolated f-string, always executed with `shell=True`. -/
def gitInvocation : GitCmd → Invocation
  | .clone url name => ⟨"git clone " ++ url ++ " " ++ name, true⟩
  | .fetch => ⟨"git fetch origin", true⟩
  | .checkout rev => ⟨"git checkout " ++ rev, true⟩
  | .submoduleUpdate => ⟨"git submodule update --init --recursive", true⟩

/-- The `git rev-parse HEAD` reads are also issued as a shell string. -/
def revParseInvocation : Invocation :=
  ⟨"git rev-parse HEAD", true⟩

/-- Oracle for the git child processes while synchronizing one
dependency. -/
structure DepEnv where
  cloneOk : Bool
  cloneHead : String
  fetchOk : Bool
  checkoutOk : Bool
  checkoutMoves : Bool
  submodOk : Bool
  revParseExitOk : Bool
deriving Repr, DecidableEq

/-- Replace the (never inspected) exit status of the rev-parse reads. -/
def setRevParseExit (e : DepEnv) (b : Bool) : DepEnv :=
  ⟨e.cloneOk, e.cloneHead, e.fetchOk, e.checkoutOk, e.checkoutMoves,
    e.submodOk, b⟩

/-- Effect of one git command on the dependency path: reported success
and resulting path state. -/
def execCmd (env : DepEnv) : GitCmd → PathState → Bool × PathState
  | .clone _ _, st =>
      if env.cloneOk then (true, .isDir env.cloneHead) else (false, st)
  | .fetch, st => (env.fetchOk, st)
  | .checkout rev, st =>
      if env.checkoutOk then
        (true, if env.checkoutMoves then .isDir rev else st)
      else (false, st)
  | .submoduleUpdate, st => (env.submodOk, st)

/-- The command loop of `fetch_dependency`: run the commands in order,
stop at the first failure. Returns overall success, the resulting path
state, and the commands that were actually attempted. -/
def runCmds (env : DepEnv) : List GitCmd → PathState → Bool × PathState × List GitCmd
  | [], st => (true, st, [])
  | c :: rest, st =>
      let r := execCmd env c st
      if r.1 then
        let rr := runCmds env rest r.2
        (rr.1, rr.2.1, c :: rr.2.2)
      else (false, r.2, [c])

/-- What `git rev-parse HEAD` prints (stripped stdout) at a path. Only
reached by the script when the path is a directory. -/
def revParseHead : PathState → String
  | .isDir h => h
  | _ => ""

/-- Per-dependency result (`RunOutcome` of the spec). The script itself
returns `True` for `unchanged`/`synchronized` and `False` for
`failed`. -/
inductive RunOutcome
  | unchanged
  | synchronized
  | failed (reason : String)
deriving Repr, DecidableEq

/-- Success of an outcome, i.e. the boolean `fetch_dependency`
returns. -/
def RunOutcome.isOk : RunOutcome → Bool
  | .failed _ => false
  | _ => true

/-- Completion of one `fetch_dependency` call: `raised` models an
uncaught Python exception escaping the call. -/
inductive SyncOut
  | raised
  | done (o : RunOutcome)
deriving Repr, DecidableEq

/-- Result of one `fetch_dependency` call, together with observations of
the run: the resulting path state, whether the clone branch was taken,
the git commands attempted and whether all of them reported success. -/
structure FetchResult where
  outcome : SyncOut
  newState : PathState
  usedClone : Bool
  cmdsRun : List GitCmd
  cmdsOk : Bool
deriving Repr, DecidableEq

/-- Shared tail of both command paths of `fetch_dependency`: run the
commands, then re-read HEAD and compare it to the pinned commit. -/
def runChainAndVerify (spec : DependencySpec) (env : DepEnv)
    (cmds : List GitCmd) (st : PathState) (clone : Bool) : FetchResult :=
  let r := runCmds env cmds st
  if r.1 then
    let final := revParseHead r.2.1
    if final == spec.commit then
      ⟨.done .synchronized, r.2.1, clone, r.2.2, true⟩
    else
      ⟨.done (.failed ("Failed to checkout correct commit, got " ++ final)),
        r.2.1, clone, r.2.2, true⟩
  else
    ⟨.done (.failed "command failed"), r.2.1, clone, r.2.2, false⟩

/-- `fetch_dependency(name, config, external_dir)`.

* If `repo_dir.exists()` is false: clone, checkout, submodule update.
* If the path exists as a file: the current-revision read
  (`subprocess.run` with `cwd=repo_dir`, not inside any try block)
  raises `NotADirectoryError`, which escapes the function.
* If the path is a directory: read the current revision (exit status
  ignored, stdout stripped); if it equals the pinned commit return
  immediately with no commands run; otherwise fetch, checkout,
  submodule update.
* After either command path, re-read HEAD and require it to equal the
  pinned commit. -/
def fetch_dependency (spec : DependencySpec) (st : PathState)
    (env : DepEnv) : FetchResult :=
  if pathExists st then
    match st with
    | .isFile => ⟨.raised, st, false, [], false⟩
    | .isDir current =>
        if current == spec.commit then
          ⟨.done .unchanged, st, false, [], true⟩
        else
          runChainAndVerify spec env
            [GitCmd.fetch, GitCmd.checkout spec.commit, GitCmd.submoduleUpdate]
            st false
    | .absent => ⟨.raised, st, false, [], false⟩
  else
    runChainAndVerify spec env
      [GitCmd.clone spec.url spec.name, GitCmd.checkout spec.commit,
        GitCmd.submoduleUpdate]
      st true

/-- Host platform family, used only to pick the fallback delete
command. -/
inductive OsFamily
  | win32
  | posix
deriving Repr, DecidableEq

/-- Oracle for the delete operations of `clean_dependencies`, keyed by
entry name: whether a plain `shutil.rmtree` completes, whether it
completes thanks to the `remove_readonly` `onerror` handler clearing
read-only attributes, and whether the native fallback delete
completes. -/
structure CleanEnv where
  platform : OsFamily
  rmtreeBareOk : String → Bool
  rmtreeRetryOk : String → Bool
  fallbackOk : String → Bool

/-- `shutil.rmtree(item, onerror=remove_readonly)` completes: either the
plain delete works, or it works after the handler clears read-only
bits. -/
def shutilRmtreeOk (env : CleanEnv) (name : String) : Bool :=
  env.rmtreeBareOk name || env.rmtreeRetryOk name

/-- The platform-specific native forced recursive delete the cleaner
falls back to, again an interpolated string run with `shell=True`. -/
def fallbackInvocation (p : OsFamily) (path : String) : Invocation :=
  match p with
  | .win32 => ⟨"rd /s /q \"" ++ path ++ "\"", true⟩
  | .posix => ⟨"rm -rf \"" ++ path ++ "\"", true⟩

/-- One entry directly under the workspace root: a regular file, or a
directory (for dependency working copies, carrying what
`git rev-parse HEAD` reads inside it). -/
inductive EntryKind
  | file
  | dir (head : String)
deriving Repr, DecidableEq

/-- True for a regular file entry. -/
def EntryKind.isFileKind : EntryKind → Bool
  | .file => true
  | .dir _ => false

/-- A named entry of the workspace root. -/
abbrev Entry := String × EntryKind

/-- The workspace root: `none` when the directory does not exist,
otherwise its list of entries. -/
abbrev Workspace := Option (List Entry)

/-- What `clean_dependencies` prints at the end: the root was processed,
or it did not exist (a distinct message, not an error). -/
inductive CleanReport
  | cleaned
  | missingRoot
deriving Repr, DecidableEq

/-- Processing of one entry by the cleaner: files are skipped; for a
directory, try `shutil.rmtree` with the read-only-clearing handler, and
on failure invoke the platform fallback delete, keeping the entry only
if that also fails. Returns the surviving entry (if any) and the
fallback invocations issued. -/
def cleanEntry (env : CleanEnv) (e : Entry) : Option Entry × List Invocation :=
  match e.2 with
  | .file => (some e, [])
  | .dir _ =>
      if shutilRmtreeOk env e.1 then (none, [])
      else
        let inv := fallbackInvocation env.platform e.1
        if env.fallbackOk e.1 then (none, [inv]) else (some e, [inv])

/-- The cleaner's loop over `external_dir.iterdir()`: every entry is
processed, whatever happened to the earlier ones. -/
def cleanEntries (env : CleanEnv) : List Entry → List Entry × List Invocation
  | [] => ([], [])
  | e :: rest =>
      let r := cleanEntry env e
      let rr := cleanEntries env rest
      (r.1.toList ++ rr.1, r.2 ++ rr.2)

/-- `clean_dependencies(external_dir)`: if the root does not exist this
is a no-op reported as `missingRoot`; otherwise process every entry and
report `cleaned`. -/
def clean_dependencies (env : CleanEnv) : Workspace →
    Workspace × CleanReport × List Invocation
  | none => (none, .missingRoot, [])
  | some es =>
      let r := cleanEntries env es
      (some r.1, .cleaned, r.2)

/-- `external_dir.mkdir(exist_ok=True)`. -/
def mkdirExistOk : Workspace → Workspace
  | none => some []
  | some es => some es

/-- The path state the synchronizer sees for a dependency name, derived
from the workspace entries. -/
def pathStateOf (es : List Entry) (name : String) : PathState :=
  match es.find? (fun e => e.1 == name) with
  | none => .absent
  | some (_, .file) => .isFile
  | some (_, .dir h) => .isDir h

/-- Write an entry kind back for a name: replace the entry in place if
present, append it otherwise. -/
def setEntryKind : List Entry → String → EntryKind → List Entry
  | [], name, k => [(name, k)]
  | e :: rest, name, k =>
      if e.1 == name then (name, k) :: rest
      else e :: setEntryKind rest name k

/-- Update the workspace entries with the path state a `fetch_dependency`
call left behind. -/
def setEntry (es : List Entry) (name : String) : PathState → List Entry
  | .absent => es
  | .isFile => setEntryKind es name .file
  | .isDir h => setEntryKind es name (.dir h)

/-- Observations of the orchestrator's sync loop: aggregate success
(`none` when an uncaught exception ended the loop), the final workspace
entries, the per-dependency outcomes in registry order, and all git
commands run. -/
structure SyncLoopResult where
  success : Option Bool
  entries : List Entry
  outcomes : List (String × RunOutcome)
  gitCmds : List GitCmd
deriving Repr, DecidableEq

/-- The orchestrator's loop: synchronize every registry entry in order,
recording failures without stopping (an uncaught exception, however,
aborts the process). -/
def syncAll (envs : String → DepEnv) : List DependencySpec → List Entry →
    SyncLoopResult
  | [], es => ⟨some true, es, [], []⟩
  | d :: ds, es =>
      let r := fetch_dependency d (pathStateOf es d.name) (envs d.name)
      match r.outcome with
      | .raised => ⟨none, es, [], []⟩
      | .done o =>
          let rest := syncAll envs ds (setEntry es d.name r.newState)
          ⟨rest.success.map (fun b => o.isOk && b), rest.entries,
            (d.name, o) :: rest.outcomes, r.cmdsRun ++ rest.gitCmds⟩

/-- Parsed command-line flags. -/
structure Args where
  force : Bool
  clean : Bool
deriving Repr, DecidableEq

/-- Observable result of one run of `main`: the process exit code
(`none` when an uncaught exception crashed the run), the final
workspace, the cleaner report if the cleaner ran, the per-dependency
outcomes, the git commands run, and the fallback delete invocations. -/
structure OrchestratorResult where
  exitCode : Option Nat
  ws : Workspace
  report : Option CleanReport
  outcomes : List (String × RunOutcome)
  gitCmds : List GitCmd
  cleanups : List Invocation
deriving Repr, DecidableEq

/-- `main()` of the script, over an explicit registry: clean mode cleans
and returns 0; otherwise create the workspace root, clean-and-recreate
it first in force mode, then run the sync loop and map its aggregate
success to exit code 0 or 1. -/
def main (reg : List DependencySpec) (args : Args) (w : Workspace)
    (cenv : CleanEnv) (envs : String → DepEnv) : OrchestratorResult :=
  if args.clean then
    let c := clean_dependencies cenv w
    ⟨some 0, c.1, some c.2.1, [], [], c.2.2⟩
  else
    let w1 := mkdirExistOk w
    let afterForce :=
      if args.force then
        let c := clean_dependencies cenv w1
        (mkdirExistOk c.1, some c.2.1, c.2.2)
      else (w1, none, [])
    let r := syncAll envs reg (afterForce.1.getD [])
    ⟨r.success.map (fun b => if b then 0 else 1), some r.entries,
      afterForce.2.1, r.outcomes, r.gitCmds, afterForce.2.2⟩

/-- Keep predicate of the cleaner: an entry survives `clean_dependencies`
iff it is a regular file, or a directory for which both the library
delete (with the read-only retry) and the native fallback delete
failed. -/
def keepEntry (env : CleanEnv) (e : Entry) : Bool :=
  match e.2 with
  | .file => true
  | .dir _ => !(shutilRmtreeOk env e.1) && !(env.fallbackOk e.1)

/-- The cleaner issues the native fallback delete exactly for the
directory entries on which the library delete failed. -/
def fallbackNeeded (env : CleanEnv) (e : Entry) : Bool :=
  match e.2 with
  | .file => false
  | .dir _ => !(shutilRmtreeOk env e.1)

/-- The regular files directly under the workspace root. -/
def filesOf (w : Workspace) : List Entry :=
  (w.getD []).filter (fun e => e.2.isFileKind)

/-- An environment in which every git command succeeds and checkout
actually moves HEAD. -/
def goodEnv : DepEnv := ⟨true, "", true, true, true, true, true⟩

/-- An environment in which `git clone` fails. -/
def badCloneEnv : DepEnv := ⟨false, "", true, true, true, true, true⟩

/-- An environment in which every command reports success but checkout
silently fails to move HEAD. -/
def stuckEnv : DepEnv := ⟨true, "", true, true, false, true, true⟩

/-- A clean environment in which every library delete succeeds. -/
def cenv0 : CleanEnv := ⟨.posix, fun _ => true, fun _ => false, fun _ => false⟩

/-! ## Basic lemmas about the synchronizer -/

theorem fetch_dependency_isFile (spec : DependencySpec) (env : DepEnv) :
    fetch_dependency spec .isFile env = ⟨.raised, .isFile, false, [], false⟩ := rfl

theorem fetch_dependency_absent (spec : DependencySpec) (env : DepEnv) :
    fetch_dependency spec .absent env =
      runChainAndVerify spec env
        [GitCmd.clone spec.url spec.name, GitCmd.checkout spec.commit,
          GitCmd.submoduleUpdate] .absent true := rfl

theorem fetch_dependency_isDir_eq (spec : DependencySpec) (env : DepEnv) :
    fetch_dependency spec (.isDir spec.commit) env =
      ⟨.done .unchanged, .isDir spec.commit, false, [], true⟩ := by
  simp [fetch_dependency, pathExists]

theorem fetch_dependency_isDir_ne (spec : DependencySpec) (env : DepEnv)
    (h : String) (he : h ≠ spec.commit) :
    fetch_dependency spec (.isDir h) env =
      runChainAndVerify spec env
        [GitCmd.fetch, GitCmd.checkout spec.commit, GitCmd.submoduleUpdate]
        (.isDir h) false := by
  simp [fetch_dependency, pathExists, he]

theorem runChainAndVerify_sync_iff (spec : DependencySpec) (env : DepEnv)
    (cmds : List GitCmd) (st : PathState) (b : Bool) :
    ((runChainAndVerify spec env cmds st b).outcome = .done .synchronized
      ↔ ((runChainAndVerify spec env cmds st b).cmdsOk = true
          ∧ revParseHead (runChainAndVerify spec env cmds st b).newState
              = spec.commit)) := by
  unfold runChainAndVerify
  cases h1 : (runCmds env cmds st).1 <;>
    simp [h1] <;>
    cases h2 : (revParseHead (runCmds env cmds st).2.1 == spec.commit) <;>
    simp_all

theorem runChainAndVerify_failed (spec : DependencySpec) (env : DepEnv)
    (cmds : List GitCmd) (st : PathState) (b : Bool)
    (h : (runChainAndVerify spec env cmds st b).outcome ≠ .done .synchronized) :
    ∃ s, (runChainAndVerify spec env cmds st b).outcome = .done (.failed s) := by
  unfold runChainAndVerify at *
  cases h1 : (runCmds env cmds st).1 <;> simp [h1] at h ⊢
  cases h2 : (revParseHead (runCmds env cmds st).2.1 == spec.commit) <;>
    simp_all

theorem runChainAndVerify_not_raised (spec : DependencySpec) (env : DepEnv)
    (cmds : List GitCmd) (st : PathState) (b : Bool) :
    (runChainAndVerify spec env cmds st b).outcome ≠ .raised := by
  unfold runChainAndVerify
  cases h1 : (runCmds env cmds st).1 <;> simp [h1] <;>
    cases h2 : (revParseHead (runCmds env cmds st).2.1 == spec.commit) <;>
    simp_all

theorem runChainAndVerify_usedClone (spec : DependencySpec) (env : DepEnv)
    (cmds : List GitCmd) (st : PathState) (b : Bool) :
    (runChainAndVerify spec env cmds st b).usedClone = b := by
  unfold runChainAndVerify
  cases h1 : (runCmds env cmds st).1 <;> simp [h1] <;>
    cases h2 : (revParseHead (runCmds env cmds st).2.1 == spec.commit) <;>
    simp_all

theorem runCmds_head (env : DepEnv) (c : GitCmd) (rest : List GitCmd)
    (st : PathState) :
    (runCmds env (c :: rest) st).2.2.head? = some c := by
  unfold runCmds
  cases h1 : (execCmd env c st).1 <;> simp [h1]

theorem runChainAndVerify_cmdsRun (spec : DependencySpec) (env : DepEnv)
    (cmds : List GitCmd) (st : PathState) (b : Bool) :
    (runChainAndVerify spec env cmds st b).cmdsRun = (runCmds env cmds st).2.2 := by
  unfold runChainAndVerify
  cases h1 : (runCmds env cmds st).1 <;> simp [h1] <;>
    cases h2 : (revParseHead (runCmds env cmds st).2.1 == spec.commit) <;>
    simp_all

/-! ## Claim theorems about the synchronizer -/

/-- C3: after any clone or fetch-and-checkout path (but not the fast
`Unchanged` path), `fetch_dependency` re-reads the resulting revision
and compares it to the pinned commit; the outcome is `synchronized`
exactly when every command reported success and the re-read revision
equals the pinned commit, and in every other case — in particular on a
post-checkout mismatch where every command reported success — the
outcome is `failed`. -/
theorem C3_post_sync_verification (spec : DependencySpec) (st : PathState)
    (env : DepEnv) (h1 : st ≠ PathState.isFile)
    (h2 : st ≠ PathState.isDir spec.commit) :
    ((fetch_dependency spec st env).outcome = .done .synchronized
      ↔ ((fetch_dependency spec st env).cmdsOk = true
          ∧ revParseHead (fetch_dependency spec st env).newState = spec.commit))
    ∧ (¬((fetch_dependency spec st env).cmdsOk = true
          ∧ revParseHead (fetch_dependency spec st env).newState = spec.commit) →
        ∃ s, (fetch_dependency spec st env).outcome = .done (.failed s)) := by
  have key : ∀ cmds st0 b,
      ((runChainAndVerify spec env cmds st0 b).outcome = .done .synchronized
        ↔ ((runChainAndVerify spec env cmds st0 b).cmdsOk = true
            ∧ revParseHead (runChainAndVerify spec env cmds st0 b).newState
                = spec.commit))
      ∧ (¬((runChainAndVerify spec env cmds st0 b).cmdsOk = true
            ∧ revParseHead (runChainAndVerify spec env cmds st0 b).newState
                = spec.commit) →
          ∃ s, (runChainAndVerify spec env cmds st0 b).outcome
              = .done (.failed s)) := by
    intro cmds st0 b
    refine ⟨runChainAndVerify_sync_iff spec env cmds st0 b, fun hn => ?_⟩
    refine runChainAndVerify_failed spec env cmds st0 b (fun hs => hn ?_)
    exact (runChainAndVerify_sync_iff spec env cmds st0 b).mp hs
  cases st with
  | absent => rw [fetch_dependency_absent]; exact key _ _ _
  | isFile => exact absurd rfl h1
  | isDir h =>
      have hne : h ≠ spec.commit := by
        intro hh; exact h2 (by rw [hh])
      rw [fetch_dependency_isDir_ne spec env h hne]
      exact key _ _ _

/-- Witness for C3: a present directory at revision `"222"` with every
command reporting success but checkout silently not moving HEAD is
classified `failed`, not `synchronized`. -/
theorem C3_post_sync_verification_witness :
    ((PathState.isDir "222" ≠ PathState.isFile)
      ∧ PathState.isDir "222"
          ≠ PathState.isDir (DependencySpec.mk "a" "u" "111").commit)
    ∧ (((fetch_dependency ⟨"a", "u", "111"⟩ (.isDir "222") stuckEnv).outcome
          = .done .synchronized
        ↔ ((fetch_dependency ⟨"a", "u", "111"⟩ (.isDir "222") stuckEnv).cmdsOk = true
            ∧ revParseHead (fetch_dependency ⟨"a", "u", "111"⟩ (.isDir "222")
                stuckEnv).newState = (DependencySpec.mk "a" "u" "111").commit))
      ∧ (¬((fetch_dependency ⟨"a", "u", "111"⟩ (.isDir "222") stuckEnv).cmdsOk = true
            ∧ revParseHead (fetch_dependency ⟨"a", "u", "111"⟩ (.isDir "222")
                stuckEnv).newState = (DependencySpec.mk "a" "u" "111").commit) →
          ∃ s, (fetch_dependency ⟨"a", "u", "111"⟩ (.isDir "222") stuckEnv).outcome
              = .done (.failed s))) :=
  ⟨⟨by decide, by decide⟩,
    C3_post_sync_verification ⟨"a", "u", "111"⟩ (.isDir "222") stuckEnv
      (by decide) (by decide)⟩

/-- C7 counterexample: the claim that every version-control invocation
is made with an explicit argument vector and no shell interpretation is
false at a concrete input: the commands run while cloning nanobind are
all issued with `shell=True`. -/
theorem C7_counterexample :
    ¬ (∀ i ∈ (fetch_dependency
          ⟨"nanobind", "https://github.com/wjakob/nanobind.git",
            "116e098cfa96effca2a54e32e0ce5b93abe25393"⟩
          .absent goodEnv).cmdsRun.map gitInvocation, i.shell = false) := by
  decide

/-- C7 amended: every version-control invocation the script makes is a
single interpolated command string executed with shell interpretation
enabled (`shell=True`); revision identifiers, URLs and names are spliced
into the command text. -/
theorem C7_amended_shell_true (spec : DependencySpec) (st : PathState)
    (env : DepEnv) :
    (∀ i ∈ (fetch_dependency spec st env).cmdsRun.map gitInvocation,
        i.shell = true)
    ∧ (∀ c : GitCmd, (gitInvocation c).shell = true)
    ∧ revParseInvocation.shell = true
    ∧ (∀ p path, (fallbackInvocation p path).shell = true)
    ∧ (∀ url n, (gitInvocation (.clone url n)).cmdString
        = "git clone " ++ url ++ " " ++ n)
    ∧ (∀ r, (gitInvocation (.checkout r)).cmdString = "git checkout " ++ r) := by
  have hall : ∀ c : GitCmd, (gitInvocation c).shell = true := by
    intro c; cases c <;> rfl
  refine ⟨?_, hall, rfl, ?_, fun _ _ => rfl, fun _ => rfl⟩
  · intro i hi
    simp only [List.mem_map] at hi
    obtain ⟨c, _, rfl⟩ := hi
    exact hall c
  · intro p path; cases p <;> rfl

/-- C8 counterexample: the claim that the clone branch is taken exactly
when no directory of the dependency's name exists is false at a concrete
input: when a regular file of that name exists, no directory exists and
yet the clone branch is not taken (the script checks
`repo_dir.exists()`, which is true for a file). -/
theorem C8_counterexample :
    ¬ ((fetch_dependency
          ⟨"nanobind", "https://github.com/wjakob/nanobind.git",
            "116e098cfa96effca2a54e32e0ce5b93abe25393"⟩
          .isFile goodEnv).usedClone = !(isDirState PathState.isFile)) := by
  decide

/-- C8 amended: the clone branch is taken exactly when no entry of the
dependency's name — file or directory — exists under the workspace root;
a regular file of that name routes to the present branch. -/
theorem C8_clone_branch_iff_absent (spec : DependencySpec) (st : PathState)
    (env : DepEnv) :
    ((fetch_dependency spec st env).usedClone = true ↔ st = .absent)
    ∧ (fetch_dependency spec st env).usedClone = !(pathExists st) := by
  cases st with
  | absent =>
      rw [fetch_dependency_absent]
      simp [runChainAndVerify_usedClone, pathExists]
  | isFile => simp [fetch_dependency_isFile, pathExists]
  | isDir h =>
      constructor
      · constructor
        · intro hc
          exfalso
          by_cases he : h = spec.commit
          · subst he; rw [fetch_dependency_isDir_eq] at hc; simp at hc
          · rw [fetch_dependency_isDir_ne spec env h he,
              runChainAndVerify_usedClone] at hc
            simp at hc
        · intro hc; cases hc
      · by_cases he : h = spec.commit
        · subst he; rw [fetch_dependency_isDir_eq]; simp [pathExists]
        · rw [fetch_dependency_isDir_ne spec env h he,
            runChainAndVerify_usedClone]
          simp [pathExists]

/-- C10: for a present directory whose current-revision read yields
anything other than the pinned commit (including the empty output of a
non-repository or half-cloned directory), `fetch_dependency` does not
raise, proceeds to the fetch-and-checkout path (first command `git
fetch origin`, clone branch not taken), and its entire result is
independent of the exit status of the revision read, which the script
never inspects. -/
theorem C10_revread_exit_ignored (spec : DependencySpec) (h : String)
    (env : DepEnv) (b : Bool) (hne : h ≠ spec.commit) :
    (fetch_dependency spec (.isDir h) env).outcome ≠ SyncOut.raised
    ∧ (fetch_dependency spec (.isDir h) env).cmdsRun.head? = some GitCmd.fetch
    ∧ (fetch_dependency spec (.isDir h) env).usedClone = false
    ∧ fetch_dependency spec (.isDir h) env
        = fetch_dependency spec (.isDir h) (setRevParseExit env b) := by
  have hrw := fetch_dependency_isDir_ne spec env h hne
  have hrw2 := fetch_dependency_isDir_ne spec (setRevParseExit env b) h hne
  refine ⟨?_, ?_, ?_, ?_⟩
  · rw [hrw]; exact runChainAndVerify_not_raised _ _ _ _ _
  · rw [hrw, runChainAndVerify_cmdsRun]; exact runCmds_head _ _ _ _
  · rw [hrw, runChainAndVerify_usedClone]
  · cases env; rfl

/-- Witness for C10: a present directory whose revision read returns the
empty string (non-repository) proceeds to the fetch path without
raising, independently of the read's exit status. -/
theorem C10_revread_exit_ignored_witness :
    ("" ≠ (DependencySpec.mk "a" "u" "111").commit)
    ∧ ((fetch_dependency ⟨"a", "u", "111"⟩ (.isDir "") goodEnv).outcome
          ≠ SyncOut.raised
      ∧ (fetch_dependency ⟨"a", "u", "111"⟩ (.isDir "") goodEnv).cmdsRun.head?
          = some GitCmd.fetch
      ∧ (fetch_dependency ⟨"a", "u", "111"⟩ (.isDir "") goodEnv).usedClone = false
      ∧ fetch_dependency ⟨"a", "u", "111"⟩ (.isDir "") goodEnv
          = fetch_dependency ⟨"a", "u", "111"⟩ (.isDir "")
              (setRevParseExit goodEnv false)) :=
  ⟨by decide,
    C10_revread_exit_ignored ⟨"a", "u", "111"⟩ "" goodEnv false (by decide)⟩

/-! ## Lemmas about the cleaner -/

theorem cleanEntries_eq (env : CleanEnv) (es : List Entry) :
    cleanEntries env es =
      (es.filter (keepEntry env),
        (es.filter (fallbackNeeded env)).map
          (fun e => fallbackInvocation env.platform e.1)) := by
  induction es with
  | nil => rfl
  | cons e rest ih =>
      obtain ⟨n, k⟩ := e
      cases k with
      | file =>
          simp [cleanEntries, cleanEntry, ih, keepEntry, fallbackNeeded,
            List.filter_cons]
      | dir h =>
          by_cases h1 : shutilRmtreeOk env n <;>
            by_cases h2 : env.fallbackOk n <;>
              simp [cleanEntries, cleanEntry, ih, keepEntry, fallbackNeeded,
                List.filter_cons, h1, h2]

theorem filter_subset_filter {α : Type} (p q : α → Bool)
    (hpq : ∀ a, q a = true → p a = true) (l : List α) :
    (l.filter p).filter q = l.filter q := by
  induction l with
  | nil => rfl
  | cons a l ih =>
      by_cases hq : q a = true
      · have hp := hpq a hq
        rw [List.filter_cons, if_pos hp, List.filter_cons, if_pos hq,
          List.filter_cons, if_pos hq, ih]
      · by_cases hp : p a = true
        · rw [List.filter_cons, if_pos hp, List.filter_cons, if_neg hq,
            List.filter_cons, if_neg hq, ih]
        · rw [List.filter_cons, if_neg hp, List.filter_cons, if_neg hq, ih]

theorem filter_keep_files (env : CleanEnv) (es : List Entry) :
    (es.filter (keepEntry env)).filter (fun e => e.2.isFileKind)
      = es.filter (fun e => e.2.isFileKind) := by
  refine filter_subset_filter (keepEntry env) (fun e => e.2.isFileKind)
    (fun a ha => ?_) es
  obtain ⟨n, k⟩ := a
  cases k with
  | file => rfl
  | dir h => simp [EntryKind.isFileKind] at ha

/-! ## Claim theorems about the cleaner and run modes -/

/-- C6: the clean operation is a pure best-effort pass. On a missing
workspace root it is a no-op reported by the distinct `missingRoot`
report. On an existing root it reports `cleaned` and, for every delete
environment (including ones where every delete fails), it processes all
entries: the surviving entries are exactly the files and the directories
for which both the library delete (plain or after the read-only-clearing
retry) and the native fallback delete failed, and the platform-specific
fallback delete is invoked exactly for the directories on which the
library delete failed. -/
theorem C6_clean_never_raises (env : CleanEnv) (es : List Entry) :
    (clean_dependencies env none = (none, .missingRoot, [])
      ∧ CleanReport.missingRoot ≠ CleanReport.cleaned)
    ∧ ((clean_dependencies env (some es)).2.1 = .cleaned
      ∧ (clean_dependencies env (some es)).1 = some (es.filter (keepEntry env))
      ∧ (clean_dependencies env (some es)).2.2
          = (es.filter (fallbackNeeded env)).map
              (fun e => fallbackInvocation env.platform e.1)) := by
  refine ⟨⟨rfl, by decide⟩, rfl, ?_, ?_⟩ <;>
    simp [clean_dependencies, cleanEntries_eq]

/-- C5: when the clean flag is set the orchestrator cleans the workspace
and exits 0, performing no synchronization (no outcomes, no git
commands) and no workspace-root creation, whatever the force flag is. -/
theorem C5_clean_takes_precedence (reg : List DependencySpec) (b : Bool)
    (w : Workspace) (cenv : CleanEnv) (envs : String → DepEnv) :
    main reg ⟨b, true⟩ w cenv envs =
      ⟨some 0, (clean_dependencies cenv w).1,
        some (clean_dependencies cenv w).2.1, [], [],
        (clean_dependencies cenv w).2.2⟩ := rfl

/-- C9: the cleaner deletes only directories: the regular files directly
under the workspace root are exactly preserved by the cleaning pass, by
the clean-mode run of `main`, and by the force-mode pre-clean pipeline
(create root, clean, recreate root) that precedes the sync loop. -/
theorem C9_clean_leaves_files (env : CleanEnv) (es : List Entry)
    (reg : List DependencySpec) (b : Bool) (w : Workspace)
    (envs : String → DepEnv) :
    (cleanEntries env es).1.filter (fun e => e.2.isFileKind)
        = es.filter (fun e => e.2.isFileKind)
    ∧ filesOf (main reg ⟨b, true⟩ w env envs).ws = filesOf w
    ∧ filesOf (mkdirExistOk (clean_dependencies env (mkdirExistOk w)).1)
        = filesOf w := by
  refine ⟨?_, ?_, ?_⟩
  · rw [cleanEntries_eq]; exact filter_keep_files env es
  · have hws : (main reg ⟨b, true⟩ w env envs).ws
        = (clean_dependencies env w).1 := rfl
    rw [hws]
    cases w with
    | none => rfl
    | some es2 =>
        show filesOf (some (cleanEntries env es2).1) = filesOf (some es2)
        simp only [filesOf, Option.getD_some, cleanEntries_eq]
        exact filter_keep_files env es2
  · cases w with
    | none =>
        show filesOf (mkdirExistOk (some (cleanEntries env []).1)) = filesOf none
        rfl
    | some es2 =>
        show filesOf (mkdirExistOk (some (cleanEntries env es2).1))
            = filesOf (some es2)
        simp only [filesOf, mkdirExistOk, Option.getD_some, cleanEntries_eq]
        exact filter_keep_files env es2

/-- C4: a force-mode run is equivalent to a clean-mode run followed by a
plain sync run: starting from any prior workspace state and with the
same external behaviour, the final workspace (directory set and
checked-out revisions), the exit code and the per-dependency outcomes
coincide. -/
theorem C4_force_is_clean_then_sync (reg : List DependencySpec)
    (w : Workspace) (cenv : CleanEnv) (envs : String → DepEnv) :
    (main reg ⟨true, false⟩ w cenv envs).ws
        = (main reg ⟨false, false⟩
            ((main reg ⟨false, true⟩ w cenv envs).ws) cenv envs).ws
    ∧ (main reg ⟨true, false⟩ w cenv envs).exitCode
        = (main reg ⟨false, false⟩
            ((main reg ⟨false, true⟩ w cenv envs).ws) cenv envs).exitCode
    ∧ (main reg ⟨true, false⟩ w cenv envs).outcomes
        = (main reg ⟨false, false⟩
            ((main reg ⟨false, true⟩ w cenv envs).ws) cenv envs).outcomes := by
  have key : mkdirExistOk (clean_dependencies cenv (mkdirExistOk w)).1
      = mkdirExistOk (clean_dependencies cenv w).1 := by
    cases w <;> rfl
  have l1 : (main reg ⟨true, false⟩ w cenv envs).ws
      = some (syncAll envs reg
          ((mkdirExistOk (clean_dependencies cenv (mkdirExistOk w)).1).getD
            [])).entries := rfl
  have r1 : (main reg ⟨false, false⟩
        ((main reg ⟨false, true⟩ w cenv envs).ws) cenv envs).ws
      = some (syncAll envs reg
          ((mkdirExistOk (clean_dependencies cenv w).1).getD [])).entries := rfl
  have l2 : (main reg ⟨true, false⟩ w cenv envs).exitCode
      = (syncAll envs reg
          ((mkdirExistOk (clean_dependencies cenv (mkdirExistOk w)).1).getD
            [])).success.map (fun b => if b then 0 else 1) := rfl
  have r2 : (main reg ⟨false, false⟩
        ((main reg ⟨false, true⟩ w cenv envs).ws) cenv envs).exitCode
      = (syncAll envs reg
          ((mkdirExistOk (clean_dependencies cenv w).1).getD
            [])).success.map (fun b => if b then 0 else 1) := rfl
  have l3 : (main reg ⟨true, false⟩ w cenv envs).outcomes
      = (syncAll envs reg
          ((mkdirExistOk (clean_dependencies cenv (mkdirExistOk w)).1).getD
            [])).outcomes := rfl
  have r3 : (main reg ⟨false, false⟩
        ((main reg ⟨false, true⟩ w cenv envs).ws) cenv envs).outcomes
      = (syncAll envs reg
          ((mkdirExistOk (clean_dependencies cenv w).1).getD [])).outcomes := rfl
  rw [l1, r1, l2, r2, l3, r3, key]
  exact ⟨rfl, rfl, rfl⟩

/-! ## Lemmas about workspace updates and the sync loop -/

theorem pathStateOf_setEntryKind_self (es : List Entry) (name : String)
    (k : EntryKind) :
    pathStateOf (setEntryKind es name k) name =
      (match k with
        | .file => PathState.isFile
        | .dir h => PathState.isDir h) := by
  induction es with
  | nil => cases k <;> simp [setEntryKind, pathStateOf, List.find?]
  | cons e rest ih =>
      by_cases he : e.1 == name
      · cases k <;> simp [setEntryKind, he, pathStateOf, List.find?]
      · simp only [setEntryKind, if_neg he]
        cases k <;> simpa [pathStateOf, List.find?, he] using ih

theorem pathStateOf_setEntryKind_other (es : List Entry) (name m : String)
    (k : EntryKind) (hne : m ≠ name) :
    pathStateOf (setEntryKind es name k) m = pathStateOf es m := by
  have hb : (name == m) = false := by
    simp only [beq_eq_false_iff_ne, ne_eq]
    exact fun hh => hne hh.symm
  induction es with
  | nil => simp [setEntryKind, pathStateOf, List.find?, hb]
  | cons e rest ih =>
      by_cases he : e.1 == name
      · have he2 : (e.1 == m) = false := by
          have : e.1 = name := by simpa using he
          simp only [this, hb]
        simp [setEntryKind, he, pathStateOf, List.find?, hb, he2]
      · simp only [setEntryKind, if_neg he]
        by_cases hm : e.1 == m
        · simp [pathStateOf, List.find?, hm]
        · simpa [pathStateOf, List.find?, hm] using ih

theorem pathStateOf_setEntry_self (es : List Entry) (name h : String) :
    pathStateOf (setEntry es name (.isDir h)) name = .isDir h := by
  simpa [setEntry] using pathStateOf_setEntryKind_self es name (.dir h)

theorem pathStateOf_setEntry_other (es : List Entry) (name m : String)
    (st : PathState) (hne : m ≠ name) :
    pathStateOf (setEntry es name st) m = pathStateOf es m := by
  cases st with
  | absent => rfl
  | isFile => exact pathStateOf_setEntryKind_other es name m .file hne
  | isDir h => exact pathStateOf_setEntryKind_other es name m (.dir h) hne

theorem revParseHead_eq_of_ne_empty (st : PathState) (c : String)
    (h : revParseHead st = c) (hc : c ≠ "") : st = .isDir c := by
  cases st with
  | absent => exact absurd h.symm hc
  | isFile => exact absurd h.symm hc
  | isDir hd => rw [show hd = c from h]

theorem runChainAndVerify_ok_state (spec : DependencySpec) (env : DepEnv)
    (cmds : List GitCmd) (st : PathState) (b : Bool) (o : RunOutcome)
    (ho : (runChainAndVerify spec env cmds st b).outcome = .done o)
    (hok : o.isOk = true) (hc : spec.commit ≠ "") :
    (runChainAndVerify spec env cmds st b).newState = .isDir spec.commit := by
  have hsync : (runChainAndVerify spec env cmds st b).outcome
      = .done .synchronized := by
    rcases o with _ | _ | s
    · exfalso
      unfold runChainAndVerify at ho
      cases h1 : (runCmds env cmds st).1 <;> simp [h1] at ho <;>
        cases h2 : (revParseHead (runCmds env cmds st).2.1 == spec.commit) <;>
        simp_all
    · rw [ho]
    · simp [RunOutcome.isOk] at hok
  have hv := (runChainAndVerify_sync_iff spec env cmds st b).mp hsync
  exact revParseHead_eq_of_ne_empty _ _ hv.2 hc

theorem fetch_dependency_ok_state (spec : DependencySpec) (st : PathState)
    (env : DepEnv) (o : RunOutcome)
    (ho : (fetch_dependency spec st env).outcome = .done o)
    (hok : o.isOk = true) (hc : spec.commit ≠ "") :
    (fetch_dependency spec st env).newState = .isDir spec.commit := by
  cases st with
  | absent =>
      rw [fetch_dependency_absent] at ho ⊢
      exact runChainAndVerify_ok_state spec env _ _ _ o ho hok hc
  | isFile => rw [fetch_dependency_isFile] at ho; cases ho
  | isDir h =>
      by_cases he : h = spec.commit
      · subst he; rw [fetch_dependency_isDir_eq]
      · rw [fetch_dependency_isDir_ne spec env h he] at ho ⊢
        exact runChainAndVerify_ok_state spec env _ _ _ o ho hok hc

theorem syncAll_nil (envs : String → DepEnv) (es : List Entry) :
    syncAll envs [] es = ⟨some true, es, [], []⟩ := rfl

theorem syncAll_cons_raised (envs : String → DepEnv) (d : DependencySpec)
    (ds : List DependencySpec) (es : List Entry)
    (h : (fetch_dependency d (pathStateOf es d.name) (envs d.name)).outcome
        = .raised) :
    syncAll envs (d :: ds) es = ⟨none, es, [], []⟩ := by
  simp only [syncAll, h]

theorem syncAll_cons_done (envs : String → DepEnv) (d : DependencySpec)
    (ds : List DependencySpec) (es : List Entry) (o : RunOutcome)
    (h : (fetch_dependency d (pathStateOf es d.name) (envs d.name)).outcome
        = .done o) :
    syncAll envs (d :: ds) es =
      ⟨(syncAll envs ds (setEntry es d.name
            (fetch_dependency d (pathStateOf es d.name)
              (envs d.name)).newState)).success.map (fun b => o.isOk && b),
        (syncAll envs ds (setEntry es d.name
            (fetch_dependency d (pathStateOf es d.name)
              (envs d.name)).newState)).entries,
        (d.name, o) :: (syncAll envs ds (setEntry es d.name
            (fetch_dependency d (pathStateOf es d.name)
              (envs d.name)).newState)).outcomes,
        (fetch_dependency d (pathStateOf es d.name) (envs d.name)).cmdsRun
          ++ (syncAll envs ds (setEntry es d.name
              (fetch_dependency d (pathStateOf es d.name)
                (envs d.name)).newState)).gitCmds⟩ := by
  simp only [syncAll, h]

theorem syncAll_untouched (envs : String → DepEnv)
    (reg : List DependencySpec) (es : List Entry) (n : String)
    (hn : n ∉ reg.map DependencySpec.name) :
    pathStateOf (syncAll envs reg es).entries n = pathStateOf es n := by
  induction reg generalizing es with
  | nil => rfl
  | cons d ds ih =>
      simp only [List.map_cons, List.mem_cons, not_or] at hn
      cases ho : (fetch_dependency d (pathStateOf es d.name)
          (envs d.name)).outcome with
      | raised => rw [syncAll_cons_raised envs d ds es ho]
      | done o =>
          rw [syncAll_cons_done envs d ds es o ho]
          have h1 := ih (setEntry es d.name
            (fetch_dependency d (pathStateOf es d.name)
              (envs d.name)).newState) hn.2
          rw [h1, pathStateOf_setEntry_other es d.name n _ hn.1]

theorem syncAll_status (envs : String → DepEnv) (reg : List DependencySpec)
    (es : List Entry) (b : Bool)
    (h : (syncAll envs reg es).success = some b) :
    (syncAll envs reg es).outcomes.map Prod.fst = reg.map DependencySpec.name
    ∧ (b = true ↔ ∀ p ∈ (syncAll envs reg es).outcomes, p.2.isOk = true) := by
  induction reg generalizing es b with
  | nil =>
      rw [syncAll_nil] at h ⊢
      cases h
      simp
  | cons d ds ih =>
      cases ho : (fetch_dependency d (pathStateOf es d.name)
          (envs d.name)).outcome with
      | raised => rw [syncAll_cons_raised envs d ds es ho] at h; cases h
      | done o =>
          rw [syncAll_cons_done envs d ds es o ho] at h ⊢
          simp only [Option.map_eq_some'] at h
          obtain ⟨b2, hb2, rfl⟩ := h
          obtain ⟨hnames, hiff⟩ := ih _ _ hb2
          refine ⟨by simp [hnames], ?_⟩
          simp only [Bool.and_eq_true, hiff, List.mem_cons]
          constructor
          · rintro ⟨h1, h2⟩ p (rfl | hp)
            · exact h1
            · exact h2 p hp
          · intro hall
            exact ⟨hall (d.name, o) (Or.inl rfl),
              fun p hp => hall p (Or.inr hp)⟩

theorem syncAll_ok_states (envs : String → DepEnv)
    (reg : List DependencySpec) (es : List Entry)
    (hnd : (reg.map DependencySpec.name).Nodup)
    (hc : ∀ d ∈ reg, d.commit ≠ "")
    (h : (syncAll envs reg es).success = some true) :
    ∀ d ∈ reg,
      pathStateOf (syncAll envs reg es).entries d.name = .isDir d.commit := by
  induction reg generalizing es with
  | nil => intro d hd; cases hd
  | cons d0 ds ih =>
      cases ho : (fetch_dependency d0 (pathStateOf es d0.name)
          (envs d0.name)).outcome with
      | raised => rw [syncAll_cons_raised envs d0 ds es ho] at h; cases h
      | done o =>
          rw [syncAll_cons_done envs d0 ds es o ho] at h ⊢
          simp only [Option.map_eq_some'] at h
          obtain ⟨b2, hb2, hband⟩ := h
          have hok : o.isOk = true := by
            cases hok : o.isOk
            · rw [hok] at hband; simp at hband
            · rfl
          have hb2t : b2 = true := by
            cases hb : b2
            · rw [hb, hok] at hband; simp at hband
            · rfl
          subst hb2t
          simp only [List.map_cons, List.nodup_cons] at hnd
          have hst := fetch_dependency_ok_state d0 _ (envs d0.name) o ho hok
            (hc d0 (List.mem_cons_self d0 ds))
          intro d hd
          rcases List.mem_cons.mp hd with rfl | hd2
          · rw [hst, syncAll_untouched envs ds _ d.name hnd.1,
              pathStateOf_setEntry_self]
          · exact ih _ hnd.2 (fun d2 hd2b => hc d2 (List.mem_cons_of_mem d0 hd2b))
              hb2 d hd2

theorem syncAll_fast (envs : String → DepEnv) (reg : List DependencySpec)
    (es : List Entry)
    (h : ∀ d ∈ reg, pathStateOf es d.name = .isDir d.commit) :
    (syncAll envs reg es).success = some true
    ∧ (syncAll envs reg es).outcomes
        = reg.map (fun d => (d.name, RunOutcome.unchanged))
    ∧ (syncAll envs reg es).gitCmds = [] := by
  induction reg generalizing es with
  | nil => exact ⟨rfl, rfl, rfl⟩
  | cons d0 ds ih =>
      have h0 := h d0 (List.mem_cons_self d0 ds)
      have hfd : fetch_dependency d0 (pathStateOf es d0.name) (envs d0.name)
          = ⟨.done .unchanged, .isDir d0.commit, false, [], true⟩ := by
        rw [h0]; exact fetch_dependency_isDir_eq d0 (envs d0.name)
      have ho : (fetch_dependency d0 (pathStateOf es d0.name)
          (envs d0.name)).outcome = .done .unchanged := by rw [hfd]
      rw [syncAll_cons_done envs d0 ds es .unchanged ho]
      have hinv : ∀ d ∈ ds,
          pathStateOf (setEntry es d0.name
            (fetch_dependency d0 (pathStateOf es d0.name)
              (envs d0.name)).newState) d.name = .isDir d.commit := by
        intro d hd
        rw [hfd]
        by_cases hname : d.name = d0.name
        · rw [hname, pathStateOf_setEntry_self]
          have hda := h d (List.mem_cons_of_mem d0 hd)
          rw [hname, h0] at hda
          exact hda
        · rw [pathStateOf_setEntry_other es d0.name d.name _ hname]
          exact h d (List.mem_cons_of_mem d0 hd)
      obtain ⟨hs, hout, hcmds⟩ := ih _ hinv
      refine ⟨?_, ?_, ?_⟩
      · rw [hs]; rfl
      · simp [hout]
      · rw [hfd] at hcmds ⊢
        simpa using hcmds

/-- The plain-sync run of `main`, written out. -/
theorem main_sync_eq (reg : List DependencySpec) (w : Workspace)
    (cenv : CleanEnv) (envs : String → DepEnv) :
    main reg ⟨false, false⟩ w cenv envs =
      ⟨(syncAll envs reg ((mkdirExistOk w).getD [])).success.map
          (fun b => if b then 0 else 1),
        some (syncAll envs reg ((mkdirExistOk w).getD [])).entries, none,
        (syncAll envs reg ((mkdirExistOk w).getD [])).outcomes,
        (syncAll envs reg ((mkdirExistOk w).getD [])).gitCmds, []⟩ := rfl

theorem main_sync_fast (reg : List DependencySpec) (envs : String → DepEnv)
    (cenv : CleanEnv) (E : List Entry)
    (h : ∀ d ∈ reg, pathStateOf E d.name = .isDir d.commit) :
    (main reg ⟨false, false⟩ (some E) cenv envs).outcomes
        = reg.map (fun d => (d.name, RunOutcome.unchanged))
    ∧ (main reg ⟨false, false⟩ (some E) cenv envs).gitCmds = []
    ∧ (main reg ⟨false, false⟩ (some E) cenv envs).exitCode = some 0 := by
  have hfast := syncAll_fast envs reg E h
  refine ⟨hfast.2.1, hfast.2.2, ?_⟩
  show (syncAll envs reg E).success.map (fun b => if b then 0 else 1) = some 0
  rw [hfast.1]
  rfl

/-! ## Claim theorems about the orchestrator -/

/-- C1: a dependency whose directory is present at the pinned revision
returns `unchanged` at once, with no commands run at all (in particular
no clone and no fetch); consequently, after a plain sync run that exited
0, a second plain sync run on the resulting workspace — under any
external behaviour — runs zero git commands and yields `unchanged` for
every registry entry, again exiting 0. -/
theorem C1_fast_path_idempotent (spec : DependencySpec) (env : DepEnv)
    (reg : List DependencySpec) (w : Workspace) (cenv cenv2 : CleanEnv)
    (envs envs2 : String → DepEnv)
    (hnd : (reg.map DependencySpec.name).Nodup)
    (hc : ∀ d ∈ reg, d.commit ≠ "")
    (h0 : (main reg ⟨false, false⟩ w cenv envs).exitCode = some 0) :
    fetch_dependency spec (.isDir spec.commit) env =
      ⟨.done .unchanged, .isDir spec.commit, false, [], true⟩
    ∧ (main reg ⟨false, false⟩ ((main reg ⟨false, false⟩ w cenv envs).ws)
        cenv2 envs2).outcomes
        = reg.map (fun d => (d.name, RunOutcome.unchanged))
    ∧ (main reg ⟨false, false⟩ ((main reg ⟨false, false⟩ w cenv envs).ws)
        cenv2 envs2).gitCmds = []
    ∧ (main reg ⟨false, false⟩ ((main reg ⟨false, false⟩ w cenv envs).ws)
        cenv2 envs2).exitCode = some 0 := by
  have hsucc : (syncAll envs reg ((mkdirExistOk w).getD [])).success
      = some true := by
    rw [main_sync_eq] at h0
    simp only [Option.map_eq_some'] at h0
    obtain ⟨b, hb, hfb⟩ := h0
    cases b
    · simp at hfb
    · exact hb
  have hws : (main reg ⟨false, false⟩ w cenv envs).ws
      = some (syncAll envs reg ((mkdirExistOk w).getD [])).entries := rfl
  have hstates := syncAll_ok_states envs reg _ hnd hc hsucc
  have hfast := main_sync_fast reg envs2 cenv2
    (syncAll envs reg ((mkdirExistOk w).getD [])).entries hstates
  rw [hws]
  exact ⟨fetch_dependency_isDir_eq spec env, hfast.1, hfast.2.1, hfast.2.2⟩

/-- Witness for C1 on the real registry: a pristine workspace is fully
provisioned by one run (exit 0), and the theorem then yields that the
repeat run is all-`unchanged` with zero git commands. -/
theorem C1_fast_path_idempotent_witness :
    ((DEPENDENCIES.map DependencySpec.name).Nodup
      ∧ (∀ d ∈ DEPENDENCIES, d.commit ≠ "")
      ∧ (main DEPENDENCIES ⟨false, false⟩ none cenv0
          (fun _ => goodEnv)).exitCode = some 0)
    ∧ (fetch_dependency ⟨"a", "u", "111"⟩ (.isDir "111") goodEnv =
        ⟨.done .unchanged, .isDir "111", false, [], true⟩
      ∧ (main DEPENDENCIES ⟨false, false⟩
          ((main DEPENDENCIES ⟨false, false⟩ none cenv0
            (fun _ => goodEnv)).ws) cenv0 (fun _ => goodEnv)).outcomes
          = DEPENDENCIES.map (fun d => (d.name, RunOutcome.unchanged))
      ∧ (main DEPENDENCIES ⟨false, false⟩
          ((main DEPENDENCIES ⟨false, false⟩ none cenv0
            (fun _ => goodEnv)).ws) cenv0 (fun _ => goodEnv)).gitCmds = []
      ∧ (main DEPENDENCIES ⟨false, false⟩
          ((main DEPENDENCIES ⟨false, false⟩ none cenv0
            (fun _ => goodEnv)).ws) cenv0 (fun _ => goodEnv)).exitCode
          = some 0) :=
  ⟨⟨by decide, by decide, by decide⟩,
    C1_fast_path_idempotent ⟨"a", "u", "111"⟩ goodEnv DEPENDENCIES none
      cenv0 cenv0 (fun _ => goodEnv) (fun _ => goodEnv)
      (by decide) (by decide) (by decide)⟩

/-- C2: a plain sync run that terminates attempts every registry entry
in order (the outcome list covers the whole registry even when earlier
entries fail), its exit code is 0 exactly when every outcome is
`unchanged` or `synchronized`, and it is 1 as soon as one outcome is
`failed`. -/
theorem C2_full_iteration_and_exit (reg : List DependencySpec)
    (w : Workspace) (cenv : CleanEnv) (envs : String → DepEnv) (c : Nat)
    (h : (main reg ⟨false, false⟩ w cenv envs).exitCode = some c) :
    (main reg ⟨false, false⟩ w cenv envs).outcomes.map Prod.fst
        = reg.map DependencySpec.name
    ∧ (c = 0 ↔ ∀ p ∈ (main reg ⟨false, false⟩ w cenv envs).outcomes,
        p.2.isOk = true)
    ∧ ((∃ p ∈ (main reg ⟨false, false⟩ w cenv envs).outcomes,
        p.2.isOk = false) → c = 1) := by
  have hh : (main reg ⟨false, false⟩ w cenv envs).exitCode
      = (syncAll envs reg ((mkdirExistOk w).getD [])).success.map
          (fun b => if b then 0 else 1) := rfl
  have ho : (main reg ⟨false, false⟩ w cenv envs).outcomes
      = (syncAll envs reg ((mkdirExistOk w).getD [])).outcomes := rfl
  rw [hh] at h
  rw [ho]
  simp only [Option.map_eq_some'] at h
  obtain ⟨b, hb, hfb⟩ := h
  obtain ⟨hnames, hiff⟩ := syncAll_status envs reg _ b hb
  refine ⟨hnames, ?_, ?_⟩
  · constructor
    · intro hc0
      refine hiff.mp ?_
      cases b
      · exfalso; rw [hc0] at hfb; simp at hfb
      · rfl
    · intro hall
      have hbt := hiff.mpr hall
      subst hbt
      simpa using hfb.symm
  · rintro ⟨p, hp, hpf⟩
    have hbf : b = false := by
      cases hbv : b
      · rfl
      · exfalso
        have := hiff.mp hbv p hp
        rw [hpf] at this
        cases this
    subst hbf
    simpa using hfb.symm

/-- Witness for C2 on the real registry: with spdlog's clone failing and
every other dependency succeeding, all six entries are attempted and the
exit code is 1. -/
theorem C2_full_iteration_and_exit_witness :
    ((main DEPENDENCIES ⟨false, false⟩ none cenv0
        (fun n => if n == "spdlog" then badCloneEnv else goodEnv)).exitCode
      = some 1)
    ∧ ((main DEPENDENCIES ⟨false, false⟩ none cenv0
        (fun n => if n == "spdlog" then badCloneEnv else goodEnv)).outcomes.map
          Prod.fst = DEPENDENCIES.map DependencySpec.name
      ∧ (1 = 0 ↔ ∀ p ∈ (main DEPENDENCIES ⟨false, false⟩ none cenv0
          (fun n => if n == "spdlog" then badCloneEnv else goodEnv)).outcomes,
          p.2.isOk = true)
      ∧ ((∃ p ∈ (main DEPENDENCIES ⟨false, false⟩ none cenv0
          (fun n => if n == "spdlog" then badCloneEnv else goodEnv)).outcomes,
          p.2.isOk = false) → 1 = 1)) :=
  ⟨by decide,
    C2_full_iteration_and_exit DEPENDENCIES none cenv0
      (fun n => if n == "spdlog" then badCloneEnv else goodEnv) 1 (by decide)⟩

end DepFetch
